import Mathlib

/-!
Verification of the AimThree gameplay core.

The development is a shallow embedding of the real-time gameplay loop of the
AimThree aim-trainer / parkour game:

* `Vec3` and its operations embed the THREE.Vector3 operations the core uses
  (`add`, `addScaledVector`, `multiplyScalar`, `normalize`).
* `Target` embeds the `Target` class of `Target.js` (lifecycle flags, pooled
  motion state, the tracking-mode `update`).  The implicit global randomness
  of `Math.random()` is injected as explicit vector arguments (`raw`): each
  place where the source samples `(Math.random() - 0.5) * 2` per component
  receives the sampled triple as a parameter.
* `Platform` embeds a parkour platform's simulation data
  (`userData.platformBounds`, `userData.isGoal`, `position`).
* `GameState` embeds the simulation-relevant mutable fields of the `Game`
  class of `Game.js`; the functions `startGame`, `resetGame`, `endGame`,
  `winParkour`, `pauseGame`, `resumeGame`, `quitToMain`, `onMouseDown`,
  `spawnTargetPool` and `animate` embed the corresponding methods.
  External collaborators are injected as inputs: the wall clock `Date.now()`
  becomes an integer millisecond argument `now`, the raycaster's ordered
  intersection list becomes a `List (Option Nat)` (an entry `some i` is an
  object whose `userData.target` is `targets[i]`, `none` any other scene
  object, nearest first), the pointer-lock camera basis used by
  `controls.moveRight` / `controls.moveForward` becomes the input vectors
  `rightV` / `forwardV`, and the procedurally generated parkour level is
  passed to `resetGame` as data.  DOM writes that the claims observe are kept
  as state fields (`timeDisplay` for the `timer` element's number,
  `finalScore` for the end screen's headline number, `parkourWinShown` for
  the `parkour-win` end-screen class).

All numbers are modelled over `ℝ`.
-/

namespace AimThree

noncomputable section

/-- 3D vector over the reals, embedding THREE.Vector3 as used by the core. -/
structure Vec3 where
  x : ℝ
  y : ℝ
  z : ℝ

/-- The zero vector, `new THREE.Vector3()`. -/
def Vec3.zero : Vec3 := ⟨0, 0, 0⟩

/-- Componentwise addition, `Vector3.add`. -/
def Vec3.add (a b : Vec3) : Vec3 := ⟨a.x + b.x, a.y + b.y, a.z + b.z⟩

/-- Scalar multiple, `Vector3.multiplyScalar`; `a.addScaledVector(v, c)` is
`Vec3.add a (Vec3.scale c v)`. -/
def Vec3.scale (c : ℝ) (v : Vec3) : Vec3 := ⟨c * v.x, c * v.y, c * v.z⟩

/-- Squared Euclidean norm, `Vector3.lengthSq`. -/
def Vec3.normSq (v : Vec3) : ℝ := v.x * v.x + v.y * v.y + v.z * v.z

/-- `Vector3.normalize`: three.js divides by `this.length() || 1`, so a vector
of length zero (necessarily the zero vector) is left unchanged. -/
def Vec3.normalize (v : Vec3) : Vec3 :=
  if v.normSq = 0 then v else Vec3.scale (1 / Real.sqrt v.normSq) v

theorem Vec3.normSq_nonneg (v : Vec3) : 0 ≤ v.normSq := by
  have hx := mul_self_nonneg v.x
  have hy := mul_self_nonneg v.y
  have hz := mul_self_nonneg v.z
  unfold Vec3.normSq
  linarith

theorem Vec3.normSq_eq_zero_iff (v : Vec3) : v.normSq = 0 ↔ v = Vec3.zero := by
  constructor
  · intro h
    have hx := mul_self_nonneg v.x
    have hy := mul_self_nonneg v.y
    have hz := mul_self_nonneg v.z
    have hx0 : v.x * v.x = 0 := by unfold Vec3.normSq at h; linarith
    have hy0 : v.y * v.y = 0 := by unfold Vec3.normSq at h; linarith
    have hz0 : v.z * v.z = 0 := by unfold Vec3.normSq at h; linarith
    have ex : v.x = 0 := by
      rcases mul_eq_zero.mp hx0 with h1 | h1 <;> exact h1
    have ey : v.y = 0 := by
      rcases mul_eq_zero.mp hy0 with h1 | h1 <;> exact h1
    have ez : v.z = 0 := by
      rcases mul_eq_zero.mp hz0 with h1 | h1 <;> exact h1
    cases v
    simp_all [Vec3.zero]
  · intro h
    subst h
    simp [Vec3.zero, Vec3.normSq]

theorem Vec3.normSq_scale (c : ℝ) (v : Vec3) :
    (Vec3.scale c v).normSq = c * c * v.normSq := by
  unfold Vec3.scale Vec3.normSq
  ring

/-- Normalizing a nonzero vector yields a unit vector (squared norm 1). -/
theorem Vec3.normSq_normalize (v : Vec3) (h : v ≠ Vec3.zero) :
    (Vec3.normalize v).normSq = 1 := by
  have hs : v.normSq ≠ 0 := fun h0 => h ((Vec3.normSq_eq_zero_iff v).mp h0)
  have hpos : 0 < v.normSq := lt_of_le_of_ne (Vec3.normSq_nonneg v) (Ne.symm hs)
  unfold Vec3.normalize
  rw [if_neg hs, Vec3.normSq_scale]
  have hsqrt : Real.sqrt v.normSq * Real.sqrt v.normSq = v.normSq :=
    Real.mul_self_sqrt (le_of_lt hpos)
  have hsqrt_ne : Real.sqrt v.normSq ≠ 0 := by
    intro h0
    rw [h0, mul_zero] at hsqrt
    exact hs hsqrt.symm
  field_simp

/-- The three game modes of `Game.gameMode`. -/
inductive Mode where
  | static
  | tracking
  | parkour
deriving DecidableEq

/-- The `Target` entity of `Target.js`: lifecycle flag, mesh position, and the
tracking-mode motion state.  `mesh.visible` always equals `isActive` in the
source, so it is not duplicated here. -/
structure Target where
  isActive : Bool
  position : Vec3
  moveSpeed : ℝ
  moveDirection : Vec3
  changeDirTimer : ℝ

/-- `new Target(scene)`: inactive, hidden at the origin, speed 2, zero
direction, zero direction-change timer. -/
def Target.new : Target := ⟨false, Vec3.zero, 2, Vec3.zero, 0⟩

/-- `Target.spawn(position)`: set position, activate, and assign the
normalization of the freshly sampled random triple `raw`
(`setRandomDirection`). -/
def Target.spawn (t : Target) (pos raw : Vec3) : Target :=
  { t with position := pos, isActive := true, moveDirection := Vec3.normalize raw }

/-- `Target.despawn()`: hide and deactivate. -/
def Target.despawn (t : Target) : Target := { t with isActive := false }

/-- `Target.hit()`: despawn plus visual feedback hook. -/
def Target.hit (t : Target) : Target := t.despawn

/-- The position an active tracking target moves to in one update:
`mesh.position.addScaledVector(moveDirection, moveSpeed * delta)`. -/
def Target.trackPos (t : Target) (delta : ℝ) : Vec3 :=
  Vec3.add t.position (Vec3.scale (t.moveSpeed * delta) t.moveDirection)

/-- The bounce step of `Target.update`: reflect the direction component on each
axis where the (already moved) position `pos` has crossed the fixed box
(`range = 8` on x, `[1, 8]` on y, `[-16, 0]` on z). -/
def Target.reflectDir (t : Target) (pos : Vec3) : Vec3 :=
  { x := if pos.x > 8 ∨ pos.x < -8 then -t.moveDirection.x else t.moveDirection.x
    y := if pos.y > 8 ∨ pos.y < 1 then -t.moveDirection.y else t.moveDirection.y
    z := if pos.z > 0 ∨ pos.z < -16 then -t.moveDirection.z else t.moveDirection.z }

/-- `Target.update(delta, mode)` with the blend's random triple injected as
`raw`: no-op when inactive or outside tracking mode; otherwise move, bounce,
and once the direction-change timer exceeds 1.0 reset it and blend the
direction 50% toward `raw.normalize` (`lerp(newDir, 0.5).normalize()`). -/
def Target.update (t : Target) (delta : ℝ) (mode : Mode) (raw : Vec3) : Target :=
  if t.isActive = false then t
  else if mode = Mode.tracking then
    let pos := t.trackPos delta
    let dir := t.reflectDir pos
    let timer := t.changeDirTimer + delta
    if timer > 1 then
      { t with position := pos, changeDirTimer := 0,
               moveDirection :=
                 Vec3.normalize (Vec3.scale (1 / 2) (Vec3.add dir (Vec3.normalize raw))) }
    else
      { t with position := pos, changeDirTimer := timer, moveDirection := dir }
  else t

/-- Componentwise sign flips preserve the squared norm. -/
theorem Target.normSq_reflectDir (t : Target) (pos : Vec3) :
    (t.reflectDir pos).normSq = t.moveDirection.normSq := by
  unfold Target.reflectDir Vec3.normSq
  split_ifs <;> ring

/-- A parkour platform's simulation data: `position`,
`userData.platformBounds = { width, depth }` and `userData.isGoal`.  All
platforms have fixed height 0.5. -/
structure Platform where
  position : Vec3
  width : ℝ
  depth : ℝ
  isGoal : Bool

/-- The platform's top surface: `py + 0.25` (center plus half the 0.5 height). -/
def Platform.top (p : Platform) : ℝ := p.position.y + 0.25

/-- The simulation-relevant mutable state of the `Game` class.  `camera` is
`camera.position`, `canJump` is the grounded flag, `timeDisplay` the number in
the `timer` HUD element, `finalScore` the end screen's headline number and
`parkourWinShown` whether the end screen carries the `parkour-win` class. -/
structure GameState where
  score : ℝ
  gameMode : Mode
  targets : List Target
  parkourPlatforms : List Platform
  goalPlatform : Option Platform
  parkourStartTime : ℤ
  startPlatformY : ℝ
  isPlaying : Bool
  isPaused : Bool
  isGameOver : Bool
  gameDuration : ℝ
  timeLeft : ℝ
  canJump : Bool
  shotsFired : ℕ
  shotsHit : ℕ
  moveForward : Bool
  moveBackward : Bool
  moveLeft : Bool
  moveRight : Bool
  isSprinting : Bool
  camera : Vec3
  velocity : Vec3
  timeDisplay : ℤ
  finalScore : Option ℤ
  parkourWinShown : Bool

/-- The state built by the `Game` constructor (simulation fields only). -/
def initGame : GameState where
  score := 0
  gameMode := Mode.static
  targets := []
  parkourPlatforms := []
  goalPlatform := none
  parkourStartTime := 0
  startPlatformY := 2
  isPlaying := false
  isPaused := false
  isGameOver := false
  gameDuration := 60
  timeLeft := 60
  canJump := false
  shotsFired := 0
  shotsHit := 0
  moveForward := false
  moveBackward := false
  moveLeft := false
  moveRight := false
  isSprinting := false
  camera := ⟨0, 1.6, 0⟩
  velocity := Vec3.zero
  timeDisplay := 0
  finalScore := none
  parkourWinShown := false

/-- `Game.updateHUD`: the `timer` element shows `Math.ceil(timeLeft)`. -/
def updateHUD (s : GameState) : GameState := { s with timeDisplay := ⌈s.timeLeft⌉ }

/-- `Game.spawnTarget` on the target pool: scan for the first inactive target
and `spawn` it; only when every pooled target is active allocate a
`new Target` and push it, then `spawn` that one.  The random spawn position
and the random direction triple are the injected `pos` / `raw`. -/
def spawnTargetPool (pos raw : Vec3) : List Target → List Target
  | [] => [Target.spawn Target.new pos raw]
  | t :: ts =>
      if t.isActive = false then Target.spawn t pos raw :: ts
      else t :: spawnTargetPool pos raw ts

/-- `Game.spawnTarget` acting on the whole game state. -/
def spawnTargetG (s : GameState) (pos raw : Vec3) : GameState :=
  { s with targets := spawnTargetPool pos raw s.targets }

/-- `Game.resetGame`: zero score and counters, reload the countdown, update the
HUD, then per mode: parkour replaces the platform set atomically with the
freshly generated level (injected as `plats` / `goal`; the generator marks the
goal with `userData.isGoal = true`), puts the camera on the start platform and
records `Date.now()` as `parkourStartTime`; other modes despawn every pooled
target, spawn one, and put the camera at the arena origin. -/
def resetGame (s : GameState) (now : ℤ) (pos raw : Vec3)
    (plats : List Platform) (goal : Platform) : GameState :=
  let s1 := updateHUD { s with score := 0, timeLeft := s.gameDuration,
                               shotsFired := 0, shotsHit := 0 }
  if s1.gameMode = Mode.parkour then
    { s1 with parkourPlatforms := plats,
              goalPlatform := some { goal with isGoal := true },
              camera := ⟨0, s1.startPlatformY + 0.25 + 1.6, 0⟩,
              velocity := Vec3.zero,
              parkourStartTime := now }
  else
    let s2 := spawnTargetG { s1 with targets := s1.targets.map Target.despawn } pos raw
    { s2 with camera := ⟨0, 1.6, 0⟩, velocity := Vec3.zero }

/-- `Game.startGame(mode)`: select the mode, enter the playing state, clear the
`parkour-win` end-screen class, show `Time: 0s` for parkour, then `resetGame`. -/
def startGame (s : GameState) (mode : Mode) (now : ℤ) (pos raw : Vec3)
    (plats : List Platform) (goal : Platform) : GameState :=
  resetGame
    { s with gameMode := mode, isPlaying := true, isPaused := false,
             isGameOver := false, parkourWinShown := false,
             timeDisplay := if mode = Mode.parkour then 0 else s.timeDisplay }
    now pos raw plats goal

/-- `Game.endGame`: leave the playing state, enter game over, and show
`Math.floor(score)` on the end screen. -/
def endGame (s : GameState) : GameState :=
  { s with isPlaying := false, isGameOver := true, finalScore := some ⌊s.score⌋ }

/-- `Game.winParkour`: leave the playing state, enter game over, add the
`parkour-win` class and show `Math.floor((Date.now() - parkourStartTime) / 1000)`
as the completion time. -/
def winParkour (s : GameState) (now : ℤ) : GameState :=
  { s with isPlaying := false, isGameOver := true,
           finalScore := some ((now - s.parkourStartTime).fdiv 1000),
           parkourWinShown := true }

/-- `Game.pauseGame`: set the paused flag (and show the pause menu). -/
def pauseGame (s : GameState) : GameState := { s with isPaused := true }

/-- The `unlock` listener: pause only while playing, unpaused and not game
over. -/
def unlockPause (s : GameState) : GameState :=
  if s.isPlaying = true ∧ s.isPaused = false ∧ s.isGameOver = false
  then pauseGame s else s

/-- `Game.resumeGame`: clear the paused flag and re-lock the pointer. -/
def resumeGame (s : GameState) : GameState := { s with isPaused := false }

/-- `Game.quitToMain`: force the idle state and discard the parkour level. -/
def quitToMain (s : GameState) : GameState :=
  { s with isPlaying := false, isPaused := false, isGameOver := false,
           parkourPlatforms := [], goalPlatform := none, parkourWinShown := false }

/-- The `Space` branch of `Game.onKeyDown`: a grounded jump adds a 10 units/s
upward impulse and clears the grounded flag; airborne presses are rejected. -/
def spaceJump (s : GameState) : GameState :=
  if s.canJump = true then
    { s with velocity := { s.velocity with y := s.velocity.y + 10 }, canJump := false }
  else s

/-- The external data one `animate` frame consumes: the clock delta, the wall
clock `Date.now()` in milliseconds, the pointer-lock flag, the camera basis
vectors applied by `controls.moveRight` / `controls.moveForward`, the camera
position the menu animation would set while idle, the raycaster's ordered
intersection list (nearest first), and the per-target random triples for the
tracking-mode direction blends. -/
structure FrameInput where
  delta : ℝ
  now : ℤ
  isLocked : Bool
  rightV : Vec3
  forwardV : Vec3
  menuCam : Vec3
  rayHits : List (Option ℕ)
  rnd : ℕ → Vec3

/-- `Number(b)` for a move flag. -/
def boolNum (b : Bool) : ℝ := if b = true then 1 else 0

/-- The movement integration of `Game.animate` (friction, gravity, normalized
input intent, acceleration, displacement): returns the new camera position and
velocity.  `controls.moveRight(d)` / `controls.moveForward(d)` displace the
camera by `d` along the injected basis vectors. -/
def integrate (inp : FrameInput) (s : GameState) : Vec3 × Vec3 :=
  let d := inp.delta
  let vx1 := s.velocity.x - s.velocity.x * 25.0 * d
  let vz1 := s.velocity.z - s.velocity.z * 25.0 * d
  let vy1 := s.velocity.y - 9.8 * 3.0 * d
  let dir := Vec3.normalize
    ⟨boolNum s.moveRight - boolNum s.moveLeft, 0,
     boolNum s.moveForward - boolNum s.moveBackward⟩
  let acc : ℝ := if s.isSprinting = true then 320.0 * 1.6 else 320.0
  let vz2 := if s.moveForward = true ∨ s.moveBackward = true then vz1 - dir.z * acc * d else vz1
  let vx2 := if s.moveRight = true ∨ s.moveLeft = true then vx1 - dir.x * acc * d else vx1
  let cam1 := Vec3.add s.camera
    (Vec3.add (Vec3.scale (-vx2 * d) inp.rightV) (Vec3.scale (-vz2 * d) inp.forwardV))
  (⟨cam1.x, cam1.y + vy1 * d, cam1.z⟩, ⟨vx2, vy1, vz2⟩)

/-- The landing test of the parkour collision loop, exactly as written in the
source: the camera's x/z within the platform's half-extents, the feet
(`cameraY - 1.6`) at or below the platform top but within 1.0 of it, and a
non-positive vertical velocity. -/
def landedOn (cam vel : Vec3) (p : Platform) : Prop :=
  (cam.x ≥ p.position.x - p.width / 2 ∧ cam.x ≤ p.position.x + p.width / 2) ∧
  (cam.z ≥ p.position.z - p.depth / 2 ∧ cam.z ≤ p.position.z + p.depth / 2) ∧
  ((cam.y - 1.6) ≤ p.top ∧ (cam.y - 1.6) ≥ p.top - 1.0) ∧
  vel.y ≤ 0

instance (cam vel : Vec3) (p : Platform) : Decidable (landedOn cam vel p) := by
  unfold landedOn
  infer_instance

/-- The claim's phrasing of the same landing band, with absolute values. -/
def landedOnAbs (cam vel : Vec3) (p : Platform) : Prop :=
  |cam.x - p.position.x| ≤ p.width / 2 ∧
  |cam.z - p.position.z| ≤ p.depth / 2 ∧
  (p.top - 1.0 ≤ cam.y - 1.6 ∧ cam.y - 1.6 ≤ p.top) ∧
  vel.y ≤ 0

theorem landedOnAbs_iff (cam vel : Vec3) (p : Platform) :
    landedOnAbs cam vel p ↔ landedOn cam vel p := by
  unfold landedOnAbs landedOn
  rw [abs_sub_le_iff, abs_sub_le_iff]
  constructor
  · rintro ⟨⟨hx1, hx2⟩, ⟨hz1, hz2⟩, ⟨hy1, hy2⟩, hv⟩
    exact ⟨⟨by linarith, by linarith⟩, ⟨by linarith, by linarith⟩, ⟨hy2, by linarith⟩, hv⟩
  · rintro ⟨⟨hx1, hx2⟩, ⟨hz1, hz2⟩, ⟨hy1, hy2⟩, hv⟩
    exact ⟨⟨by linarith, by linarith⟩, ⟨by linarith, by linarith⟩, ⟨by linarith, hy1⟩, hv⟩

/-- Result of the parkour collision scan. -/
structure CollideResult where
  camera : Vec3
  velocity : Vec3
  canJump : Bool
  matched : Option Platform

/-- The platform loop of `Game.animate` (parkour branch): scan the platforms in
order; on the first landing match zero the vertical velocity, snap the camera
to `platformTop + 1.6`, set the grounded flag and stop; otherwise leave the
state untouched. -/
def parkourCollide (cam vel : Vec3) (cj : Bool) : List Platform → CollideResult
  | [] => ⟨cam, vel, cj, none⟩
  | p :: ps =>
      if landedOn cam vel p then
        ⟨⟨cam.x, p.top + 1.6, cam.z⟩, ⟨vel.x, 0, vel.z⟩, true, some p⟩
      else parkourCollide cam vel cj ps

/-- The platform list the collision loop iterates over:
`[...parkourPlatforms]` plus the goal platform when present. -/
def allPlatforms (s : GameState) : List Platform :=
  s.parkourPlatforms ++ s.goalPlatform.toList

/-- The fall-recovery check: below `y = -10` the camera and velocity reset to
the start platform's spawn point. -/
def fallRespawn (s : GameState) : GameState :=
  if s.camera.y < -10 then
    { s with camera := ⟨0, s.startPlatformY + 0.25 + 1.6, 0⟩, velocity := Vec3.zero }
  else s

/-- The non-parkour fixed-floor check: below eye height 1.6 snap up, zero the
vertical velocity and set the grounded flag. -/
def floorCheck (s : GameState) : GameState :=
  if s.camera.y < 1.6 then
    { s with velocity := ⟨s.velocity.x, 0, s.velocity.z⟩,
             camera := ⟨s.camera.x, 1.6, s.camera.z⟩, canJump := true }
  else s

/-- The non-parkour arena clamp: `|x|, |z| ≤ 19` via the source's sequential
ifs. -/
def clampArena (s : GameState) : GameState :=
  { s with camera :=
      ⟨if s.camera.x > 19 then 19 else if s.camera.x < -19 then -19 else s.camera.x,
       s.camera.y,
       if s.camera.z > 19 then 19 else if s.camera.z < -19 then -19 else s.camera.z⟩ }

/-- The collision scan's result on this frame's integrated camera and
velocity. -/
def collideRes (inp : FrameInput) (s : GameState) : CollideResult :=
  parkourCollide (integrate inp s).1 (integrate inp s).2 s.canJump (allPlatforms s)

/-- The state after the parkour collision scan wrote back camera, velocity and
grounded flag. -/
def applyCollide (inp : FrameInput) (s : GameState) : GameState :=
  { s with camera := (collideRes inp s).camera,
           velocity := (collideRes inp s).velocity,
           canJump := (collideRes inp s).canJump }

/-- The frame landed on the goal platform: the collision scan's first match
carries `userData.isGoal`. -/
def goalLanding (inp : FrameInput) (s : GameState) : Prop :=
  ∃ p, (collideRes inp s).matched = some p ∧ p.isGoal = true

/-- The movement block of `Game.animate` (lines guarded by
`controls.isLocked`): integrate, then per mode platform collision plus fall
recovery, or floor check plus arena clamp.  The second component is true
exactly when the matched platform was the goal, in which case the caller fires
the win transition and skips the rest of the frame. -/
def movePhase (inp : FrameInput) (s : GameState) : GameState × Bool :=
  if inp.isLocked = false then (s, false)
  else if s.gameMode = Mode.parkour then
    match (collideRes inp s).matched with
    | some p =>
        if p.isGoal = true then (applyCollide inp s, true)
        else (fallRespawn (applyCollide inp s), false)
    | none => (fallRespawn (applyCollide inp s), false)
  else
    (clampArena (floorCheck
      { s with camera := (integrate inp s).1, velocity := (integrate inp s).2 }), false)

/-- The raycast scan shared by the static fire handler and the tracking
accrual: walk the ordered intersection list and return the index of the first
entry whose entity is an active pooled target; `none` entries (scene objects
without `userData.target`) and inactive targets are skipped. -/
def firstActiveHit (ts : List Target) : List (Option ℕ) → Option ℕ
  | [] => none
  | none :: rest => firstActiveHit ts rest
  | some i :: rest =>
      match ts.get? i with
      | some t => if t.isActive = true then some i else firstActiveHit ts rest
      | none => firstActiveHit ts rest

/-- The static branch of `Game.onMouseDown` after the shot bookkeeping: act on
the first active-target intersection (despawn it, add 100 points, count the
hit, refresh the HUD, spawn a replacement) and stop scanning. -/
def staticFire (s : GameState) (pos raw : Vec3) : List (Option ℕ) → GameState
  | [] => s
  | none :: rest => staticFire s pos raw rest
  | some i :: rest =>
      match s.targets.get? i with
      | some t =>
          if t.isActive = true then
            spawnTargetG
              (updateHUD
                { s with targets := s.targets.set i t.hit,
                         score := s.score + 100, shotsHit := s.shotsHit + 1 })
              pos raw
          else staticFire s pos raw rest
      | none => staticFire s pos raw rest

/-- `Game.onMouseDown`: ignored without pointer lock or while paused / game
over; otherwise count the shot and, in static mode, run the hit resolver over
the injected intersection list. -/
def onMouseDown (s : GameState) (locked : Bool) (hits : List (Option ℕ))
    (pos raw : Vec3) : GameState :=
  if locked = false then s
  else if s.isPaused = true ∨ s.isGameOver = true then s
  else if s.gameMode = Mode.static
  then staticFire { s with shotsFired := s.shotsFired + 1 } pos raw hits
  else { s with shotsFired := s.shotsFired + 1 }

/-- `this.targets.forEach(t => t.update(delta, this.gameMode))`, the random
triple for target `i` taken from the injected stream. -/
def updateTargets (inp : FrameInput) (mode : Mode) (ts : List Target) : List Target :=
  ts.mapIdx (fun i t => t.update inp.delta mode (inp.rnd i))

/-- The state at the start of a running frame: countdown decremented by the
delta and HUD refreshed. -/
def preMove (inp : FrameInput) (s : GameState) : GameState :=
  updateHUD { s with timeLeft := s.timeLeft - inp.delta }

/-- The parkour elapsed-time display: in parkour mode the `timer` element is
overwritten with `Math.floor((Date.now() - parkourStartTime) / 1000)`. -/
def displayPhase (inp : FrameInput) (s2 : GameState) : GameState :=
  if s2.gameMode = Mode.parkour
  then { s2 with timeDisplay := (inp.now - s2.parkourStartTime).fdiv 1000 }
  else s2

/-- The tracking-mode continuous scoring: while the center ray currently
intersects an active target, score accrues at `100 * delta`. -/
def trackingScore (inp : FrameInput) (s4 : GameState) : GameState :=
  if s4.gameMode = Mode.tracking ∧ (firstActiveHit s4.targets inp.rayHits).isSome = true
  then { s4 with score := s4.score + 100 * inp.delta }
  else s4

/-- The mode-logic block guarded by `controls.isLocked`: update every pooled
target, then the tracking-mode scoring. -/
def modePhase (inp : FrameInput) (s3 : GameState) : GameState :=
  if inp.isLocked = true then
    trackingScore inp { s3 with targets := updateTargets inp s3.gameMode s3.targets }
  else s3

/-- The rest of a running frame after the movement block did not land on the
goal: the parkour elapsed-time display, then the mode-logic block. -/
def frameTail (inp : FrameInput) (s2 : GameState) : GameState :=
  modePhase inp (displayPhase inp s2)

/-- One frame of `Game.animate` (the simulation part; rendering, decoration
and weapon animation are presentation).  Order as in the source: frozen while
paused or game over; menu camera while idle; then the countdown with its
timeout transition, the HUD update, the movement block (whose goal landing
fires `winParkour` and aborts the frame), and the frame tail. -/
def animate (inp : FrameInput) (s : GameState) : GameState :=
  if s.isPaused = true then s
  else if s.isGameOver = true then s
  else if s.isPlaying = false then { s with camera := inp.menuCam }
  else if s.timeLeft - inp.delta ≤ 0 then endGame (updateHUD { s with timeLeft := 0 })
  else if (movePhase inp (preMove inp s)).2 = true
  then winParkour (movePhase inp (preMove inp s)).1 inp.now
  else frameTail inp (movePhase inp (preMove inp s)).1

/-- The operations of the game loop, with their external data injected. -/
inductive GEvent where
  | start (mode : Mode) (now : ℤ) (pos raw : Vec3) (plats : List Platform) (goal : Platform)
  | frame (inp : FrameInput)
  | mouseDown (locked : Bool) (hits : List (Option ℕ)) (pos raw : Vec3)
  | jumpKey
  | setKeys (f b l r sp : Bool)
  | unlock
  | resume
  | quit

/-- Dispatch one operation to its embedded handler. -/
def gstep : GEvent → GameState → GameState
  | .start mode now pos raw plats goal, s => startGame s mode now pos raw plats goal
  | .frame inp, s => animate inp s
  | .mouseDown locked hits pos raw, s => onMouseDown s locked hits pos raw
  | .jumpKey, s => spaceJump s
  | .setKeys f b l r sp, s =>
      { s with moveForward := f, moveBackward := b, moveLeft := l,
               moveRight := r, isSprinting := sp }
  | .unlock, s => unlockPause s
  | .resume, s => resumeGame s
  | .quit, s => quitToMain s

/-- Run a sequence of game-loop operations. -/
def runEvents (evs : List GEvent) (s : GameState) : GameState :=
  evs.foldl (fun a e => gstep e a) s

theorem spawnTargetPool_reuse (pos raw : Vec3) :
    ∀ ts : List Target, (∃ t ∈ ts, t.isActive = false) →
      ∃ i t, ts.get? i = some t ∧ t.isActive = false ∧
        spawnTargetPool pos raw ts = ts.set i (t.spawn pos raw)
  | [], h => by simp at h
  | t :: ts, h => by
      by_cases ht : t.isActive = false
      · exact ⟨0, t, rfl, ht, by simp [spawnTargetPool, ht]⟩
      · have hts : ∃ u ∈ ts, u.isActive = false := by
          rcases h with ⟨u, hu, hua⟩
          rcases List.mem_cons.mp hu with h1 | h1
          · exact absurd (h1 ▸ hua) ht
          · exact ⟨u, h1, hua⟩
        obtain ⟨i, u, hget, hua, heq⟩ := spawnTargetPool_reuse pos raw ts hts
        refine ⟨i + 1, u, ?_, hua, ?_⟩
        · simpa using hget
        · simp [spawnTargetPool, ht, heq]

theorem spawnTargetPool_alloc (pos raw : Vec3) :
    ∀ ts : List Target, (∀ t ∈ ts, t.isActive = true) →
      spawnTargetPool pos raw ts = ts ++ [Target.new.spawn pos raw]
  | [], _ => rfl
  | t :: ts, h => by
      have ht : ¬(t.isActive = false) := by simp [h t (List.mem_cons_self t ts)]
      have ih := spawnTargetPool_alloc pos raw ts (fun u hu => h u (List.mem_cons_of_mem t hu))
      simp [spawnTargetPool, ht, ih]

theorem spawnTargetPool_length_mono (pos raw : Vec3) :
    ∀ ts : List Target, ts.length ≤ (spawnTargetPool pos raw ts).length
  | [] => by simp [spawnTargetPool]
  | t :: ts => by
      by_cases ht : t.isActive = false
      · simp [spawnTargetPool, ht]
      · have ih := spawnTargetPool_length_mono pos raw ts
        simpa [spawnTargetPool, ht] using ih

/-- C8: target acquisition reuses before allocating.  When the pool holds an
inactive target, a spawn request reactivates an existing slot in place (no new
instance, same pool length); only when every pooled target is active is a new
instance allocated and appended, and a spawn never shrinks the pool. -/
theorem c8_pool_reuse (pos raw : Vec3) (ts : List Target) :
    ((∃ t ∈ ts, t.isActive = false) →
      ∃ i t, ts.get? i = some t ∧ t.isActive = false ∧
        spawnTargetPool pos raw ts = ts.set i (t.spawn pos raw) ∧
        (spawnTargetPool pos raw ts).length = ts.length) ∧
    ((∀ t ∈ ts, t.isActive = true) →
      spawnTargetPool pos raw ts = ts ++ [Target.new.spawn pos raw] ∧
      (spawnTargetPool pos raw ts).length = ts.length + 1) ∧
    ts.length ≤ (spawnTargetPool pos raw ts).length := by
  refine ⟨?_, ?_, spawnTargetPool_length_mono pos raw ts⟩
  · intro h
    obtain ⟨i, t, hget, hact, heq⟩ := spawnTargetPool_reuse pos raw ts h
    exact ⟨i, t, hget, hact, heq, by simp [heq]⟩
  · intro h
    have heq := spawnTargetPool_alloc pos raw ts h
    exact ⟨heq, by simp [heq]⟩

/-- A concrete pool for the C8 witness: one active and one inactive target. -/
def c8Pool : List Target := [{ Target.new with isActive := true }, Target.new]

/-- Witness for C8: on a pool with an inactive slot, spawning keeps the pool
length unchanged. -/
theorem c8_pool_reuse_witness :
    (∃ t ∈ c8Pool, t.isActive = false) ∧
    (spawnTargetPool Vec3.zero ⟨1, 0, 0⟩ c8Pool).length = c8Pool.length := by
  have hex : ∃ t ∈ c8Pool, t.isActive = false := ⟨Target.new, by simp [c8Pool], rfl⟩
  refine ⟨hex, ?_⟩
  obtain ⟨i, t, _, _, _, hlen⟩ := (c8_pool_reuse Vec3.zero ⟨1, 0, 0⟩ c8Pool).1 hex
  exact hlen

/-- The direction a tracking-mode target carries after an update in which the
once-per-second blend fired is the exact cancellation case is excluded. -/
theorem update_blend_unit (t : Target) (delta : ℝ) (raw : Vec3)
    (hact : t.isActive = true)
    (hunit : t.moveDirection.normSq = 1)
    (htimer : t.changeDirTimer + delta > 1)
    (hnc : Vec3.add (t.reflectDir (t.trackPos delta)) (Vec3.normalize raw) ≠ Vec3.zero) :
    (t.update delta Mode.tracking raw).moveDirection.normSq = 1 := by
  have hw : Vec3.scale (1 / 2) (Vec3.add (t.reflectDir (t.trackPos delta)) (Vec3.normalize raw)) ≠ Vec3.zero := by
    intro h0
    apply hnc
    have := congrArg Vec3.normSq h0
    rw [Vec3.normSq_scale] at this
    have hz : (Vec3.add (t.reflectDir (t.trackPos delta)) (Vec3.normalize raw)).normSq = 0 := by
      have h4 : (Vec3.zero : Vec3).normSq = 0 := by simp [Vec3.zero, Vec3.normSq]
      rw [h4] at this
      nlinarith [this]
    exact (Vec3.normSq_eq_zero_iff _).mp hz
  unfold Target.update
  rw [hact]
  simp only [Bool.true_eq_false, if_false, if_pos rfl, reduceIte]
  rw [if_pos htimer]
  exact Vec3.normSq_normalize _ hw

theorem update_no_blend_unit (t : Target) (delta : ℝ) (raw : Vec3)
    (hact : t.isActive = true)
    (hunit : t.moveDirection.normSq = 1)
    (htimer : ¬(t.changeDirTimer + delta > 1)) :
    (t.update delta Mode.tracking raw).moveDirection.normSq = 1 := by
  unfold Target.update
  rw [hact]
  simp only [Bool.true_eq_false, if_false, if_pos rfl, reduceIte]
  rw [if_neg htimer]
  simpa [Target.normSq_reflectDir] using hunit

/-- An active tracking target with the unit direction (1,0,0), direction-change
timer at 0.5, placed well inside the bounce box. -/
def c7Target : Target := ⟨true, ⟨0, 2, -5⟩, 2, ⟨1, 0, 0⟩, 1 / 2⟩

/-- C7 counterexample: when the blend fires and the freshly sampled direction is
the exact negation of the current one, `lerp(..., 0.5)` yields the zero vector
and `normalize` leaves it zero, so the post-update direction is not unit length:
the claim fails as stated.  Here the update at `delta = 0.6` triggers the blend
(timer 0.5 + 0.6 > 1) with sample (-1,0,0) against direction (1,0,0). -/
theorem c7_counterexample :
    c7Target.isActive = true ∧
    c7Target.moveDirection.normSq = 1 ∧
    (c7Target.update (3 / 5) Mode.tracking ⟨-1, 0, 0⟩).moveDirection.normSq ≠ 1 := by
  refine ⟨rfl, by norm_num [c7Target, Vec3.normSq], ?_⟩
  have h1 : (c7Target.update (3 / 5) Mode.tracking ⟨-1, 0, 0⟩).moveDirection = Vec3.zero := by
    norm_num [Target.update, c7Target, Target.trackPos, Target.reflectDir,
      Vec3.add, Vec3.scale, Vec3.normalize, Vec3.normSq, Vec3.zero, Real.sqrt_one]
  rw [h1]
  norm_num [Vec3.zero, Vec3.normSq]

/-- C7 (amended): for an active tracking-mode target whose direction is unit
length, the direction is unit length again after every `update`, including
after the once-per-second 50% blend toward the freshly sampled direction —
provided the blend's sampled direction is not the exact negation of the current
(bounced) direction; spawn assigns a unit direction provided the raw sample is
nonzero.  (In the excluded degenerate cases the direction collapses to the
zero vector, as the counterexample shows.) -/
theorem c7_amended (t : Target) (delta : ℝ) (raw : Vec3)
    (hact : t.isActive = true)
    (hunit : t.moveDirection.normSq = 1)
    (hnc : t.changeDirTimer + delta > 1 →
      Vec3.add (t.reflectDir (t.trackPos delta)) (Vec3.normalize raw) ≠ Vec3.zero) :
    (t.update delta Mode.tracking raw).moveDirection.normSq = 1 ∧
    (∀ (u : Target) (pos raw2 : Vec3), raw2 ≠ Vec3.zero →
      (u.spawn pos raw2).moveDirection.normSq = 1) := by
  constructor
  · by_cases htimer : t.changeDirTimer + delta > 1
    · exact update_blend_unit t delta raw hact hunit htimer (hnc htimer)
    · exact update_no_blend_unit t delta raw hact hunit htimer
  · intro u pos raw2 h2
    unfold Target.spawn
    exact Vec3.normSq_normalize raw2 h2

/-- Witness for C7 (amended): the same target updated with sample (0,1,0), a
blend that does fire and does not cancel, keeps a unit direction. -/
theorem c7_amended_witness :
    c7Target.isActive = true ∧
    c7Target.moveDirection.normSq = 1 ∧
    (c7Target.update (3 / 5) Mode.tracking ⟨0, 1, 0⟩).moveDirection.normSq = 1 := by
  have hnc : c7Target.changeDirTimer + 3 / 5 > 1 →
      Vec3.add (c7Target.reflectDir (c7Target.trackPos (3 / 5))) (Vec3.normalize ⟨0, 1, 0⟩) ≠ Vec3.zero := by
    intro hgt
    have hv : Vec3.add (c7Target.reflectDir (c7Target.trackPos (3 / 5))) (Vec3.normalize ⟨0, 1, 0⟩) = ⟨1, 1, 0⟩ := by
      norm_num [c7Target, Target.trackPos, Target.reflectDir,
        Vec3.add, Vec3.scale, Vec3.normalize, Vec3.normSq, Real.sqrt_one]
    rw [hv]
    intro hz
    have := congrArg Vec3.x hz
    norm_num [Vec3.zero] at this
  exact ⟨rfl, by norm_num [c7Target, Vec3.normSq],
    (c7_amended c7Target (3 / 5) ⟨0, 1, 0⟩ rfl (by norm_num [c7Target, Vec3.normSq]) hnc).1⟩

theorem fallRespawn_shape (s : GameState) :
    ∃ c v, fallRespawn s = { s with camera := c, velocity := v } := by
  unfold fallRespawn
  split_ifs
  · exact ⟨_, _, rfl⟩
  · exact ⟨s.camera, s.velocity, rfl⟩

theorem floorCheck_shape (s : GameState) :
    ∃ c v j, floorCheck s = { s with camera := c, velocity := v, canJump := j } := by
  unfold floorCheck
  split_ifs
  · exact ⟨_, _, _, rfl⟩
  · exact ⟨s.camera, s.velocity, s.canJump, rfl⟩

theorem clampArena_shape (s : GameState) :
    ∃ c, clampArena s = { s with camera := c } := ⟨_, rfl⟩

theorem movePhase_fst_shape (inp : FrameInput) (s : GameState) :
    ∃ c v j, (movePhase inp s).1 = { s with camera := c, velocity := v, canJump := j } := by
  unfold movePhase
  split_ifs with h1 h2
  · exact ⟨s.camera, s.velocity, s.canJump, rfl⟩
  · cases hm : (collideRes inp s).matched with
    | some p =>
        by_cases hg : p.isGoal = true
        · simp only [hm, hg, if_pos]
          exact ⟨_, _, _, rfl⟩
        · simp only [hm, if_neg hg]
          obtain ⟨c, v, hr⟩ := fallRespawn_shape (applyCollide inp s)
          rw [hr]
          exact ⟨_, _, _, rfl⟩
    | none =>
        simp only [hm]
        obtain ⟨c, v, hr⟩ := fallRespawn_shape (applyCollide inp s)
        rw [hr]
        exact ⟨_, _, _, rfl⟩
  · obtain ⟨c, v, j, hf⟩ :=
      floorCheck_shape { s with camera := (integrate inp s).1, velocity := (integrate inp s).2 }
    rw [hf]
    obtain ⟨c2, hc⟩ := clampArena_shape { s with camera := c, velocity := v, canJump := j }
    rw [hc]
    exact ⟨c2, v, j, rfl⟩

theorem movePhase_fields (inp : FrameInput) (s : GameState) :
    ((movePhase inp s).1).score = s.score ∧
    ((movePhase inp s).1).gameMode = s.gameMode ∧
    ((movePhase inp s).1).targets = s.targets ∧
    ((movePhase inp s).1).parkourStartTime = s.parkourStartTime ∧
    ((movePhase inp s).1).isPlaying = s.isPlaying ∧
    ((movePhase inp s).1).isPaused = s.isPaused ∧
    ((movePhase inp s).1).isGameOver = s.isGameOver ∧
    ((movePhase inp s).1).timeLeft = s.timeLeft ∧
    ((movePhase inp s).1).shotsFired = s.shotsFired ∧
    ((movePhase inp s).1).shotsHit = s.shotsHit ∧
    ((movePhase inp s).1).timeDisplay = s.timeDisplay ∧
    ((movePhase inp s).1).finalScore = s.finalScore ∧
    ((movePhase inp s).1).parkourWinShown = s.parkourWinShown := by
  obtain ⟨c, v, j, h⟩ := movePhase_fst_shape inp s
  rw [h]
  exact ⟨rfl, rfl, rfl, rfl, rfl, rfl, rfl, rfl, rfl, rfl, rfl, rfl, rfl⟩

theorem movePhase_snd_iff (inp : FrameInput) (s : GameState) :
    (movePhase inp s).2 = true ↔
      inp.isLocked = true ∧ s.gameMode = Mode.parkour ∧ goalLanding inp s := by
  unfold movePhase goalLanding
  split_ifs with h1 h2
  · simp [h1]
  · cases hm : (collideRes inp s).matched with
    | some p =>
        by_cases hg : p.isGoal = true
        · constructor
          · intro _
            exact ⟨by simpa using h1, h2, p, rfl, hg⟩
          · intro _
            simp [hg]
        · constructor
          · intro hfalse
            simp [hg] at hfalse
          · rintro ⟨_, _, q, hq, hqg⟩
            rw [← Option.some_inj.mp hq] at hqg
            exact absurd hqg hg
    | none =>
        constructor
        · intro hfalse
          exact absurd hfalse (by simp)
        · rintro ⟨_, _, q, hq, _⟩
          exact absurd hq (by simp)
  · constructor
    · intro hfalse
      exact absurd hfalse (by simp)
    · rintro ⟨_, hmode, _⟩
      exact absurd hmode h2

theorem frameTail_fields (inp : FrameInput) (s2 : GameState) :
    (frameTail inp s2).timeLeft = s2.timeLeft ∧
    (frameTail inp s2).isPlaying = s2.isPlaying ∧
    (frameTail inp s2).isPaused = s2.isPaused ∧
    (frameTail inp s2).isGameOver = s2.isGameOver ∧
    (frameTail inp s2).shotsFired = s2.shotsFired ∧
    (frameTail inp s2).shotsHit = s2.shotsHit ∧
    (frameTail inp s2).parkourStartTime = s2.parkourStartTime ∧
    (frameTail inp s2).gameMode = s2.gameMode ∧
    (frameTail inp s2).finalScore = s2.finalScore ∧
    (frameTail inp s2).parkourWinShown = s2.parkourWinShown ∧
    (frameTail inp s2).camera = s2.camera ∧
    (frameTail inp s2).velocity = s2.velocity := by
  unfold frameTail modePhase displayPhase trackingScore
  split_ifs <;>
    exact ⟨rfl, rfl, rfl, rfl, rfl, rfl, rfl, rfl, rfl, rfl, rfl, rfl⟩

theorem frameTail_score (inp : FrameInput) (s2 : GameState) (hd : 0 ≤ inp.delta) :
    s2.score ≤ (frameTail inp s2).score := by
  unfold frameTail modePhase displayPhase trackingScore
  split_ifs <;> simp <;> nlinarith

theorem animate_paused (inp : FrameInput) (s : GameState) (h : s.isPaused = true) :
    animate inp s = s := by
  unfold animate
  rw [h]
  simp

theorem animate_gameOver (inp : FrameInput) (s : GameState)
    (hpa : s.isPaused = false) (h : s.isGameOver = true) :
    animate inp s = s := by
  unfold animate
  rw [hpa, h]
  simp

theorem animate_timeout (inp : FrameInput) (s : GameState)
    (hp : s.isPlaying = true) (hpa : s.isPaused = false) (hgo : s.isGameOver = false)
    (ht : s.timeLeft - inp.delta ≤ 0) :
    animate inp s = endGame (updateHUD { s with timeLeft := 0 }) := by
  unfold animate
  rw [hpa, hgo, hp, if_pos ht]
  simp

theorem animate_win (inp : FrameInput) (s : GameState)
    (hp : s.isPlaying = true) (hpa : s.isPaused = false) (hgo : s.isGameOver = false)
    (ht : ¬(s.timeLeft - inp.delta ≤ 0))
    (hw : (movePhase inp (preMove inp s)).2 = true) :
    animate inp s = winParkour (movePhase inp (preMove inp s)).1 inp.now := by
  unfold animate
  rw [hpa, hgo, hp, if_neg ht, hw]
  simp

theorem animate_running (inp : FrameInput) (s : GameState)
    (hp : s.isPlaying = true) (hpa : s.isPaused = false) (hgo : s.isGameOver = false)
    (ht : ¬(s.timeLeft - inp.delta ≤ 0))
    (hw : (movePhase inp (preMove inp s)).2 = false) :
    animate inp s = frameTail inp (movePhase inp (preMove inp s)).1 := by
  unfold animate
  rw [hpa, hgo, hp, if_neg ht, hw]
  simp

theorem movePhase_snd_false_of_mode (inp : FrameInput) (s : GameState)
    (hmp : ¬(s.gameMode = Mode.parkour)) : (movePhase inp s).2 = false := by
  cases hb : (movePhase inp s).2
  · rfl
  · obtain ⟨_, hmode, _⟩ := (movePhase_snd_iff inp s).mp hb
    exact absurd hmode hmp

/-- C6: in the timed modes, a running tick decrements the time remaining by
the delta; whenever the result is at or below zero it is clamped to exactly 0
and the session transitions to game over in the same tick, otherwise the new
time remaining is exactly the old minus the delta and the session stays in
play. -/
theorem c6_timed_countdown (inp : FrameInput) (s : GameState)
    (hp : s.isPlaying = true) (hpa : s.isPaused = false) (hgo : s.isGameOver = false)
    (hm : s.gameMode = Mode.static ∨ s.gameMode = Mode.tracking)
    (hd : 0 < inp.delta) :
    (s.timeLeft - inp.delta ≤ 0 →
      (animate inp s).timeLeft = 0 ∧ (animate inp s).isGameOver = true) ∧
    (0 < s.timeLeft - inp.delta →
      (animate inp s).timeLeft = s.timeLeft - inp.delta ∧
      (animate inp s).isGameOver = false) := by
  have hmp : ¬(s.gameMode = Mode.parkour) := by
    rcases hm with h | h <;> rw [h] <;> simp
  constructor
  · intro ht
    rw [animate_timeout inp s hp hpa hgo ht]
    exact ⟨rfl, rfl⟩
  · intro ht
    have hw : (movePhase inp (preMove inp s)).2 = false :=
      movePhase_snd_false_of_mode inp (preMove inp s) hmp
    rw [animate_running inp s hp hpa hgo (not_le.mpr ht) hw]
    obtain ⟨ftTL, _, _, ftGO, _⟩ := frameTail_fields inp (movePhase inp (preMove inp s)).1
    obtain ⟨_, _, _, _, _, _, mpGO, mpTL, _⟩ := movePhase_fields inp (preMove inp s)
    constructor
    · rw [ftTL, mpTL]
      rfl
    · rw [ftGO, mpGO]
      exact hgo

/-- A running static-mode session at `timeLeft = 0.016`, for the C6 scenario. -/
def c6State : GameState := { initGame with isPlaying := true, timeLeft := 0.016 }

/-- A frame with `delta = 0.02`, for the C6 scenario. -/
def c6Input : FrameInput := ⟨0.02, 0, true, Vec3.zero, Vec3.zero, Vec3.zero, [], fun _ => Vec3.zero⟩

/-- Witness for C6, the spec's scenario: `timeLeft = 0.016`, `delta = 0.02` →
the tick clamps `timeLeft` to 0 and the session is game over. -/
theorem c6_timed_countdown_witness :
    c6State.isPlaying = true ∧ c6State.gameMode = Mode.static ∧
    c6State.timeLeft = 0.016 ∧ c6Input.delta = 0.02 ∧
    (animate c6Input c6State).timeLeft = 0 ∧
    (animate c6Input c6State).isGameOver = true := by
  have h := (c6_timed_countdown c6Input c6State rfl rfl rfl (Or.inl rfl)
    (by norm_num [c6Input])).1 (by norm_num [c6State, c6Input])
  exact ⟨rfl, rfl, rfl, rfl, h.1, h.2⟩

/-- The start platform of a generated parkour level (6×6 at the configured
start height 2). -/
def c1Platform : Platform := ⟨⟨0, 2, 0⟩, 6, 6, false⟩

/-- A goal platform high above the start, as the generator places it. -/
def c1Goal : Platform := ⟨⟨0, 28.25, 0⟩, 5, 5, true⟩

/-- A running parkour session standing on the start platform with the default
60-second `gameDuration` countdown untouched. -/
def c1State : GameState :=
  { initGame with gameMode := Mode.parkour, isPlaying := true,
                  parkourPlatforms := [c1Platform], goalPlatform := some c1Goal,
                  camera := ⟨0, 3.85, 0⟩, canJump := true, timeDisplay := 60 }

/-- A frame whose delta exhausts the countdown (cumulative play time past the
configured duration). -/
def c1Input : FrameInput := ⟨61, 61000, true, ⟨1, 0, 0⟩, ⟨0, 0, 1⟩, Vec3.zero, [], fun _ => Vec3.zero⟩

/-- C1 counterexample: the per-frame timer logic runs in parkour mode too, so a
playing parkour session whose countdown is exhausted transitions to game over
by timeout — without landing on the goal (the end screen does not carry the
win class) and without a quit.  The claim that parkour never times out on its
own is false on the code. -/
theorem c1_counterexample :
    c1State.gameMode = Mode.parkour ∧ c1State.isPlaying = true ∧
    c1State.isPaused = false ∧ c1State.isGameOver = false ∧
    (animate c1Input c1State).isGameOver = true ∧
    (animate c1Input c1State).parkourWinShown = false := by
  have ht : c1State.timeLeft - c1Input.delta ≤ 0 := by
    norm_num [c1State, c1Input, initGame]
  refine ⟨rfl, rfl, rfl, rfl, ?_, ?_⟩
  · rw [animate_timeout c1Input c1State rfl rfl rfl ht]
    rfl
  · rw [animate_timeout c1Input c1State rfl rfl rfl ht]
    rfl

/-- C1 (amended): in parkour mode the per-frame tick also decrements the
shared countdown, so a running tick transitions to game over exactly when the
countdown reaches zero (timeout) or the movement block lands on the goal
platform; an explicit quit leaves game over unset (it returns to the idle
menu state). -/
theorem c1_amended (inp : FrameInput) (s : GameState)
    (hmode : s.gameMode = Mode.parkour) (hp : s.isPlaying = true)
    (hpa : s.isPaused = false) (hgo : s.isGameOver = false) :
    ((animate inp s).isGameOver = true ↔
      (s.timeLeft - inp.delta ≤ 0 ∨ (inp.isLocked = true ∧ goalLanding inp s))) ∧
    (quitToMain s).isGameOver = false := by
  constructor
  · constructor
    · intro hod
      by_cases ht : s.timeLeft - inp.delta ≤ 0
      · exact Or.inl ht
      · cases hb : (movePhase inp (preMove inp s)).2 with
        | true =>
            obtain ⟨hl, _, hgl⟩ := (movePhase_snd_iff inp (preMove inp s)).mp hb
            exact Or.inr ⟨hl, hgl⟩
        | false =>
            rw [animate_running inp s hp hpa hgo ht hb] at hod
            obtain ⟨_, _, _, ftGO, _⟩ := frameTail_fields inp (movePhase inp (preMove inp s)).1
            obtain ⟨_, _, _, _, _, _, mpGO, _⟩ := movePhase_fields inp (preMove inp s)
            rw [ftGO, mpGO] at hod
            have hcontra : s.isGameOver = true := hod
            rw [hgo] at hcontra
            exact absurd hcontra (by simp)
    · intro h
      by_cases ht : s.timeLeft - inp.delta ≤ 0
      · rw [animate_timeout inp s hp hpa hgo ht]
        rfl
      · rcases h with ht2 | ⟨hl, hgl⟩
        · exact absurd ht2 ht
        · have hw : (movePhase inp (preMove inp s)).2 = true :=
            (movePhase_snd_iff inp (preMove inp s)).mpr ⟨hl, hmode, hgl⟩
          rw [animate_win inp s hp hpa hgo ht hw]
          rfl
  · rfl

/-- A frame with a small delta and no pointer lock, for the C1 witness. -/
def c1wInput : FrameInput := ⟨0.01, 100, false, ⟨1, 0, 0⟩, ⟨0, 0, 1⟩, Vec3.zero, [], fun _ => Vec3.zero⟩

/-- Witness for C1 (amended) at a concrete running parkour state. -/
theorem c1_amended_witness :
    c1State.gameMode = Mode.parkour ∧ c1State.isPlaying = true ∧
    ((animate c1wInput c1State).isGameOver = true ↔
      (c1State.timeLeft - c1wInput.delta ≤ 0 ∨
        (c1wInput.isLocked = true ∧ goalLanding c1wInput c1State))) :=
  ⟨rfl, rfl, (c1_amended c1wInput c1State rfl rfl rfl rfl).1⟩

theorem parkourCollide_first (cam vel : Vec3) (cj : Bool) (pre post : List Platform)
    (p : Platform) (hpre : ∀ q ∈ pre, ¬ landedOn cam vel q) (hp : landedOn cam vel p) :
    parkourCollide cam vel cj (pre ++ p :: post) =
      ⟨⟨cam.x, p.top + 1.6, cam.z⟩, ⟨vel.x, 0, vel.z⟩, true, some p⟩ := by
  induction pre with
  | nil =>
      simp only [List.nil_append, parkourCollide]
      rw [if_pos hp]
  | cons q qs ih =>
      have hq : ¬ landedOn cam vel q := hpre q (List.mem_cons_self q qs)
      simp only [List.cons_append, parkourCollide]
      rw [if_neg hq]
      exact ih (fun r hr => hpre r (List.mem_cons_of_mem q hr))

/-- C2: in a running parkour frame, when the first platform of the scan order
(regular platforms then goal) whose horizontal bounds contain the integrated
player position — with the feet inside the landing band and the player not
rising — is `p`, the collision scan stops at `p`, zeroes the vertical
velocity, snaps the camera to `platformTop + 1.6` and sets the grounded flag;
and if `p` is the goal, the frame is exactly the win transition applied to the
snapped state: game over fires immediately and the rest of the frame's logic
(fall recovery, elapsed display, target updates, tracking scoring) is
skipped. -/
theorem c2_platform_landing (inp : FrameInput) (s : GameState)
    (hmode : s.gameMode = Mode.parkour) (hp : s.isPlaying = true)
    (hpa : s.isPaused = false) (hgo : s.isGameOver = false)
    (hl : inp.isLocked = true) (ht : ¬(s.timeLeft - inp.delta ≤ 0))
    (pre post : List Platform) (p : Platform)
    (hsplit : allPlatforms s = pre ++ p :: post)
    (hpre : ∀ q ∈ pre, ¬ landedOnAbs (integrate inp s).1 (integrate inp s).2 q)
    (hmatch : landedOnAbs (integrate inp s).1 (integrate inp s).2 p) :
    (collideRes inp s).velocity.y = 0 ∧
    (collideRes inp s).camera.y = p.top + 1.6 ∧
    (collideRes inp s).canJump = true ∧
    (collideRes inp s).matched = some p ∧
    (p.isGoal = true →
      animate inp s = winParkour (applyCollide inp (preMove inp s)) inp.now) := by
  have hres : collideRes inp s =
      ⟨⟨(integrate inp s).1.x, p.top + 1.6, (integrate inp s).1.z⟩,
       ⟨(integrate inp s).2.x, 0, (integrate inp s).2.z⟩, true, some p⟩ := by
    unfold collideRes
    rw [hsplit]
    exact parkourCollide_first (integrate inp s).1 (integrate inp s).2 s.canJump pre post p
      (fun q hq hq2 => hpre q hq ((landedOnAbs_iff _ _ q).mpr hq2))
      ((landedOnAbs_iff _ _ p).mp hmatch)
  have hres2 : collideRes inp (preMove inp s) = collideRes inp s := rfl
  refine ⟨by rw [hres], by rw [hres], by rw [hres], by rw [hres], ?_⟩
  intro hg
  have hm2 : (collideRes inp (preMove inp s)).matched = some p := by
    rw [hres2, hres]
  have hw : (movePhase inp (preMove inp s)).2 = true := by
    refine (movePhase_snd_iff inp (preMove inp s)).mpr ⟨hl, hmode, p, hm2, hg⟩
  rw [animate_win inp s hp hpa hgo ht hw]
  have hfst : (movePhase inp (preMove inp s)).1 = applyCollide inp (preMove inp s) := by
    unfold movePhase
    rw [if_neg (by rw [hl]; simp), if_pos (show (preMove inp s).gameMode = Mode.parkour from hmode)]
    simp only [hm2]
    rw [if_pos hg]
  rw [hfst]

/-- A running parkour session falling just above the 6×6 start platform
(platform top 2.25, camera at eye height 3.85, feet at 2.25). -/
def c2State : GameState :=
  { initGame with gameMode := Mode.parkour, isPlaying := true,
                  parkourPlatforms := [c1Platform], goalPlatform := some c1Goal,
                  camera := ⟨0, 3.85, 0⟩, velocity := Vec3.zero, canJump := false }

/-- A locked frame with a 10 ms delta and no movement input. -/
def c2Input : FrameInput := ⟨0.01, 0, true, ⟨1, 0, 0⟩, ⟨0, 0, 1⟩, Vec3.zero, [], fun _ => Vec3.zero⟩

/-- Witness for C2, the spec's landing scenario: the integrated player falls
onto the 6×6 platform with top 2.25 and the scan snaps it there with the
grounded flag set. -/
theorem c2_platform_landing_witness :
    landedOnAbs (integrate c2Input c2State).1 (integrate c2Input c2State).2 c1Platform ∧
    (collideRes c2Input c2State).velocity.y = 0 ∧
    (collideRes c2Input c2State).camera.y = c1Platform.top + 1.6 ∧
    (collideRes c2Input c2State).canJump = true ∧
    (collideRes c2Input c2State).matched = some c1Platform := by
  have hmatch : landedOnAbs (integrate c2Input c2State).1 (integrate c2Input c2State).2 c1Platform := by
    norm_num [landedOnAbs, integrate, c2State, c2Input, initGame, c1Platform,
      Platform.top, Vec3.add, Vec3.scale, Vec3.zero, boolNum]
  have h := c2_platform_landing c2Input c2State rfl rfl rfl rfl rfl
    (by norm_num [c2State, c2Input, initGame]) [] [c1Goal] c1Platform rfl
    (fun q hq => absurd hq (List.not_mem_nil q)) hmatch
  exact ⟨hmatch, h.1, h.2.1, h.2.2.1, h.2.2.2.1⟩

theorem staticFire_hit (s : GameState) (pos raw : Vec3) (rest : List (Option ℕ))
    (i : ℕ) (t : Target) (hget : s.targets.get? i = some t) (hact : t.isActive = true) :
    ∀ pre : List (Option ℕ),
      (∀ j, some j ∈ pre → ∀ u, s.targets.get? j = some u → u.isActive = false) →
      staticFire s pos raw (pre ++ some i :: rest) =
        spawnTargetG
          (updateHUD
            { s with targets := s.targets.set i t.hit,
                     score := s.score + 100, shotsHit := s.shotsHit + 1 })
          pos raw
  | [], _ => by
      simp only [List.nil_append, staticFire, hget]
      rw [if_pos hact]
  | none :: os, hpre => by
      simp only [List.cons_append, staticFire]
      exact staticFire_hit s pos raw rest i t hget hact os
        (fun j hj u hu => hpre j (List.mem_cons_of_mem none hj) u hu)
  | some j :: os, hpre => by
      simp only [List.cons_append, staticFire]
      cases hj : s.targets.get? j with
      | none =>
          exact staticFire_hit s pos raw rest i t hget hact os
            (fun k hk u hu => hpre k (List.mem_cons_of_mem (some j) hk) u hu)
      | some u =>
          have hina : u.isActive = false :=
            hpre j (List.mem_cons_self (some j) os) u hj
          simp only [hina, Bool.false_eq_true, if_false]
          exact staticFire_hit s pos raw rest i t hget hact os
            (fun k hk u2 hu2 => hpre k (List.mem_cons_of_mem (some j) hk) u2 hu2)

theorem staticFire_miss (s : GameState) (pos raw : Vec3) :
    ∀ hits : List (Option ℕ),
      (∀ j, some j ∈ hits → ∀ u, s.targets.get? j = some u → u.isActive = false) →
      staticFire s pos raw hits = s
  | [], _ => rfl
  | none :: os, hmiss => by
      simp only [staticFire]
      exact staticFire_miss s pos raw os
        (fun j hj u hu => hmiss j (List.mem_cons_of_mem none hj) u hu)
  | some j :: os, hmiss => by
      simp only [staticFire]
      cases hj : s.targets.get? j with
      | none =>
          exact staticFire_miss s pos raw os
            (fun k hk u hu => hmiss k (List.mem_cons_of_mem (some j) hk) u hu)
      | some u =>
          have hina : u.isActive = false :=
            hmiss j (List.mem_cons_self (some j) os) u hj
          simp only [hina, Bool.false_eq_true, if_false]
          exact staticFire_miss s pos raw os
            (fun k hk u2 hu2 => hmiss k (List.mem_cons_of_mem (some j) hk) u2 hu2)

/-- C3: on a locked, unpaused static-mode fire, the resolver scans the ordered
intersection list and acts on the first entry that is an active target: score
+100, hit counter +1, that target despawned, and a replacement spawned at
once; entries for non-targets or inactive targets nearer on the ray are
skipped.  A fire with no active-target intersection increments shots fired
only, and a fire without pointer lock does nothing. -/
theorem c3_static_fire (s : GameState) (hits : List (Option ℕ)) (pos raw : Vec3)
    (hpa : s.isPaused = false) (hgo : s.isGameOver = false)
    (hmode : s.gameMode = Mode.static) :
    (∀ pre rest i t, hits = pre ++ some i :: rest →
      (∀ j, some j ∈ pre → ∀ u, s.targets.get? j = some u → u.isActive = false) →
      s.targets.get? i = some t → t.isActive = true →
      onMouseDown s true hits pos raw =
        spawnTargetG
          (updateHUD
            { s with shotsFired := s.shotsFired + 1,
                     targets := s.targets.set i t.hit,
                     score := s.score + 100, shotsHit := s.shotsHit + 1 })
          pos raw) ∧
    ((∀ j, some j ∈ hits → ∀ u, s.targets.get? j = some u → u.isActive = false) →
      onMouseDown s true hits pos raw = { s with shotsFired := s.shotsFired + 1 }) ∧
    onMouseDown s false hits pos raw = s := by
  have e1 : onMouseDown s true hits pos raw =
      staticFire { s with shotsFired := s.shotsFired + 1 } pos raw hits := by
    unfold onMouseDown
    simp [hpa, hgo, hmode]
  refine ⟨?_, ?_, rfl⟩
  · intro pre rest i t hsplit hpre hget hact
    rw [e1, hsplit]
    exact staticFire_hit { s with shotsFired := s.shotsFired + 1 } pos raw rest i t hget hact pre hpre
  · intro hmiss
    rw [e1]
    exact staticFire_miss { s with shotsFired := s.shotsFired + 1 } pos raw hits hmiss

/-- An inactive pooled target sitting nearer on the ray (distance 1). -/
def c3TargetInactive : Target := { Target.new with position := ⟨0, 1, -1⟩ }

/-- An active pooled target at distance 3. -/
def c3TargetActive : Target := { Target.new with isActive := true, position := ⟨0, 1, -3⟩ }

/-- A running static-mode session with the two targets pooled. -/
def c3State : GameState :=
  { initGame with isPlaying := true, targets := [c3TargetInactive, c3TargetActive] }

/-- Witness for C3, the spec's scenario: the ray meets the inactive target at
distance 1 first and the active one at distance 3; the hit registers on the
active target only, with score +100, hit +1, despawn and respawn. -/
theorem c3_static_fire_witness :
    c3State.targets.get? 1 = some c3TargetActive ∧
    c3TargetActive.isActive = true ∧
    onMouseDown c3State true [some 0, some 1] Vec3.zero ⟨1, 0, 0⟩ =
      spawnTargetG
        (updateHUD
          { c3State with shotsFired := c3State.shotsFired + 1,
                         targets := c3State.targets.set 1 c3TargetActive.hit,
                         score := c3State.score + 100,
                         shotsHit := c3State.shotsHit + 1 })
        Vec3.zero ⟨1, 0, 0⟩ := by
  have hpre : ∀ j, some j ∈ [(some 0 : Option ℕ)] →
      ∀ u, c3State.targets.get? j = some u → u.isActive = false := by
    intro j hj u hu
    have hj0 : j = 0 := by simpa using hj
    subst hj0
    have hu2 : c3TargetInactive = u := by simpa [c3State] using hu
    rw [← hu2]
    rfl
  refine ⟨rfl, rfl, ?_⟩
  exact (c3_static_fire c3State [some 0, some 1] Vec3.zero ⟨1, 0, 0⟩ rfl rfl rfl).1
    [some 0] [] 1 c3TargetActive rfl hpre rfl rfl

/-- Flag encoding of the not-started (menu) phase. -/
def flagsNotStarted (s : GameState) : Prop :=
  s.isPlaying = false ∧ s.isPaused = false ∧ s.isGameOver = false

/-- Flag encoding of the playing phase. -/
def flagsPlaying (s : GameState) : Prop :=
  s.isPlaying = true ∧ s.isPaused = false ∧ s.isGameOver = false

/-- Flag encoding of the paused phase (`pauseGame` leaves `isPlaying` set). -/
def flagsPaused (s : GameState) : Prop :=
  s.isPlaying = true ∧ s.isPaused = true ∧ s.isGameOver = false

/-- Flag encoding of the game-over phase. -/
def flagsGameOver (s : GameState) : Prop :=
  s.isPlaying = false ∧ s.isPaused = false ∧ s.isGameOver = true

/-- The flag triple encodes one of the four session phases. -/
def phaseValid (s : GameState) : Prop :=
  flagsNotStarted s ∨ flagsPlaying s ∨ flagsPaused s ∨ flagsGameOver s

theorem bool_ne_of_eq_false {b : Bool} (h : b = false) : ¬(b = true) := by
  rw [h]
  simp

theorem bool_ne_of_eq_true {b : Bool} (h : b = true) : ¬(b = false) := by
  rw [h]
  simp

theorem resetGame_flags (s : GameState) (now : ℤ) (pos raw : Vec3)
    (plats : List Platform) (goal : Platform) :
    (resetGame s now pos raw plats goal).isPlaying = s.isPlaying ∧
    (resetGame s now pos raw plats goal).isPaused = s.isPaused ∧
    (resetGame s now pos raw plats goal).isGameOver = s.isGameOver := by
  simp only [resetGame, spawnTargetG, updateHUD]
  split_ifs <;> exact ⟨rfl, rfl, rfl⟩

theorem startGame_flags (s : GameState) (mode : Mode) (now : ℤ) (pos raw : Vec3)
    (plats : List Platform) (goal : Platform) :
    (startGame s mode now pos raw plats goal).isPlaying = true ∧
    (startGame s mode now pos raw plats goal).isPaused = false ∧
    (startGame s mode now pos raw plats goal).isGameOver = false := by
  unfold startGame
  obtain ⟨h1, h2, h3⟩ := resetGame_flags
    { s with gameMode := mode, isPlaying := true, isPaused := false,
             isGameOver := false, parkourWinShown := false,
             timeDisplay := if mode = Mode.parkour then 0 else s.timeDisplay }
    now pos raw plats goal
  exact ⟨h1, h2, h3⟩

theorem staticFire_fields (s : GameState) (pos raw : Vec3) :
    ∀ hits : List (Option ℕ),
      (staticFire s pos raw hits).isPlaying = s.isPlaying ∧
      (staticFire s pos raw hits).isPaused = s.isPaused ∧
      (staticFire s pos raw hits).isGameOver = s.isGameOver ∧
      (staticFire s pos raw hits).shotsFired = s.shotsFired ∧
      s.score ≤ (staticFire s pos raw hits).score ∧
      s.shotsHit ≤ (staticFire s pos raw hits).shotsHit
  | [] => ⟨rfl, rfl, rfl, rfl, le_refl _, le_refl _⟩
  | none :: os => by
      simp only [staticFire]
      exact staticFire_fields s pos raw os
  | some j :: os => by
      simp only [staticFire]
      cases hj : s.targets.get? j with
      | none => exact staticFire_fields s pos raw os
      | some u =>
          by_cases hu : u.isActive = true
          · simp only [hu, eq_self_iff_true, if_true]
            refine ⟨rfl, rfl, rfl, rfl, ?_, ?_⟩
            · show s.score ≤ s.score + 100
              linarith
            · exact Nat.le_succ _
          · have hu2 : u.isActive = false := by simpa using hu
            simp only [hu2, Bool.false_eq_true, if_false]
            exact staticFire_fields s pos raw os

theorem onMouseDown_fields (s : GameState) (locked : Bool) (hits : List (Option ℕ))
    (pos raw : Vec3) :
    (onMouseDown s locked hits pos raw).isPlaying = s.isPlaying ∧
    (onMouseDown s locked hits pos raw).isPaused = s.isPaused ∧
    (onMouseDown s locked hits pos raw).isGameOver = s.isGameOver ∧
    s.score ≤ (onMouseDown s locked hits pos raw).score ∧
    s.shotsFired ≤ (onMouseDown s locked hits pos raw).shotsFired ∧
    s.shotsHit ≤ (onMouseDown s locked hits pos raw).shotsHit := by
  unfold onMouseDown
  split_ifs with h1 h2 h3
  · exact ⟨rfl, rfl, rfl, le_refl _, le_refl _, le_refl _⟩
  · exact ⟨rfl, rfl, rfl, le_refl _, le_refl _, le_refl _⟩
  · obtain ⟨f1, f2, f3, f4, f5, f6⟩ :=
      staticFire_fields { s with shotsFired := s.shotsFired + 1 } pos raw hits
    refine ⟨f1, f2, f3, f5, ?_, f6⟩
    rw [f4]
    exact Nat.le_succ _
  · exact ⟨rfl, rfl, rfl, le_refl _, Nat.le_succ _, le_refl _⟩

theorem animate_menu (inp : FrameInput) (s : GameState)
    (hpa : s.isPaused = false) (hgo : s.isGameOver = false) (hp : s.isPlaying = false) :
    animate inp s = { s with camera := inp.menuCam } := by
  unfold animate
  rw [hpa, hgo, hp]
  simp

theorem animate_phaseValid (inp : FrameInput) (s : GameState) (h : phaseValid s) :
    phaseValid (animate inp s) := by
  by_cases h1 : s.isPaused = true
  · rw [animate_paused inp s h1]
    exact h
  have h1f : s.isPaused = false := by simpa using h1
  by_cases h2 : s.isGameOver = true
  · rw [animate_gameOver inp s h1f h2]
    exact h
  have h2f : s.isGameOver = false := by simpa using h2
  by_cases h3 : s.isPlaying = false
  · rw [animate_menu inp s h1f h2f h3]
    exact h
  have h3t : s.isPlaying = true := by simpa using h3
  by_cases h4 : s.timeLeft - inp.delta ≤ 0
  · rw [animate_timeout inp s h3t h1f h2f h4]
    exact Or.inr (Or.inr (Or.inr ⟨rfl, h1f, rfl⟩))
  · cases h5 : (movePhase inp (preMove inp s)).2 with
    | false =>
        rw [animate_running inp s h3t h1f h2f h4 h5]
        obtain ⟨_, ftP, ftPa, ftGO, _⟩ := frameTail_fields inp (movePhase inp (preMove inp s)).1
        obtain ⟨_, _, _, _, mpP, mpPa, mpGO, _⟩ := movePhase_fields inp (preMove inp s)
        refine Or.inr (Or.inl ⟨?_, ?_, ?_⟩)
        · rw [ftP, mpP]
          exact h3t
        · rw [ftPa, mpPa]
          exact h1f
        · rw [ftGO, mpGO]
          exact h2f
    | true =>
        rw [animate_win inp s h3t h1f h2f h4 h5]
        obtain ⟨_, _, _, _, _, mpPa, _⟩ := movePhase_fields inp (preMove inp s)
        refine Or.inr (Or.inr (Or.inr ⟨rfl, ?_, rfl⟩))
        show (movePhase inp (preMove inp s)).1.isPaused = false
        rw [mpPa]
        exact h1f

theorem gstep_phaseValid (e : GEvent) (s : GameState) (h : phaseValid s) :
    phaseValid (gstep e s) := by
  cases e with
  | start mode now pos raw plats goal =>
      obtain ⟨h1, h2, h3⟩ := startGame_flags s mode now pos raw plats goal
      exact Or.inr (Or.inl ⟨h1, h2, h3⟩)
  | frame inp => exact animate_phaseValid inp s h
  | mouseDown locked hits pos raw =>
      obtain ⟨f1, f2, f3, _⟩ := onMouseDown_fields s locked hits pos raw
      rcases h with ⟨a, b, c⟩ | ⟨a, b, c⟩ | ⟨a, b, c⟩ | ⟨a, b, c⟩
      · exact Or.inl ⟨f1.trans a, f2.trans b, f3.trans c⟩
      · exact Or.inr (Or.inl ⟨f1.trans a, f2.trans b, f3.trans c⟩)
      · exact Or.inr (Or.inr (Or.inl ⟨f1.trans a, f2.trans b, f3.trans c⟩))
      · exact Or.inr (Or.inr (Or.inr ⟨f1.trans a, f2.trans b, f3.trans c⟩))
  | jumpKey =>
      show phaseValid (spaceJump s)
      unfold spaceJump
      split_ifs
      · exact h
      · exact h
  | setKeys f b l r sp => exact h
  | unlock =>
      show phaseValid (unlockPause s)
      unfold unlockPause
      split_ifs with hg
      · exact Or.inr (Or.inr (Or.inl ⟨hg.1, rfl, hg.2.2⟩))
      · exact h
  | resume =>
      show phaseValid (resumeGame s)
      rcases h with ⟨a, b, c⟩ | ⟨a, b, c⟩ | ⟨a, b, c⟩ | ⟨a, b, c⟩
      · exact Or.inl ⟨a, rfl, c⟩
      · exact Or.inr (Or.inl ⟨a, rfl, c⟩)
      · exact Or.inr (Or.inl ⟨a, rfl, c⟩)
      · exact Or.inr (Or.inr (Or.inr ⟨a, rfl, c⟩))
  | quit => exact Or.inl ⟨rfl, rfl, rfl⟩

theorem runEvents_phaseValid (evs : List GEvent) :
    ∀ s : GameState, phaseValid s → phaseValid (runEvents evs s) := by
  induction evs with
  | nil => exact fun s h => h
  | cons e es ih => exact fun s h => ih (gstep e s) (gstep_phaseValid e s h)

theorem phaseValid_exactlyOne (s : GameState) (h : phaseValid s) :
    (flagsNotStarted s ∧ ¬flagsPlaying s ∧ ¬flagsPaused s ∧ ¬flagsGameOver s) ∨
    (flagsPlaying s ∧ ¬flagsNotStarted s ∧ ¬flagsPaused s ∧ ¬flagsGameOver s) ∨
    (flagsPaused s ∧ ¬flagsNotStarted s ∧ ¬flagsPlaying s ∧ ¬flagsGameOver s) ∨
    (flagsGameOver s ∧ ¬flagsNotStarted s ∧ ¬flagsPlaying s ∧ ¬flagsPaused s) := by
  rcases h with ⟨a, b, c⟩ | ⟨a, b, c⟩ | ⟨a, b, c⟩ | ⟨a, b, c⟩
  · exact Or.inl ⟨⟨a, b, c⟩,
      fun hx => bool_ne_of_eq_false a hx.1,
      fun hx => bool_ne_of_eq_false a hx.1,
      fun hx => bool_ne_of_eq_false c hx.2.2⟩
  · exact Or.inr (Or.inl ⟨⟨a, b, c⟩,
      fun hx => bool_ne_of_eq_true a hx.1,
      fun hx => bool_ne_of_eq_false b hx.2.1,
      fun hx => bool_ne_of_eq_false c hx.2.2⟩)
  · exact Or.inr (Or.inr (Or.inl ⟨⟨a, b, c⟩,
      fun hx => bool_ne_of_eq_true a hx.1,
      fun hx => bool_ne_of_eq_true b hx.2.1,
      fun hx => bool_ne_of_eq_true b hx.2.1⟩))
  · exact Or.inr (Or.inr (Or.inr ⟨⟨a, b, c⟩,
      fun hx => bool_ne_of_eq_true c hx.2.2,
      fun hx => bool_ne_of_eq_true c hx.2.2,
      fun hx => bool_ne_of_eq_true c hx.2.2⟩))

/-- C5: at every state reachable by the game loop's operations from the
constructor state, the flag triple (`isPlaying`, `isPaused`, `isGameOver`)
encodes exactly one of the four session phases: not started, playing, paused,
game over.  Every transition — start, pause (the guarded unlock handler),
resume, timeout end, parkour win (both inside the frame tick), quit, and the
flag-neutral operations — preserves this. -/
theorem c5_session_flags (evs : List GEvent) :
    (flagsNotStarted (runEvents evs initGame) ∧ ¬flagsPlaying (runEvents evs initGame) ∧
      ¬flagsPaused (runEvents evs initGame) ∧ ¬flagsGameOver (runEvents evs initGame)) ∨
    (flagsPlaying (runEvents evs initGame) ∧ ¬flagsNotStarted (runEvents evs initGame) ∧
      ¬flagsPaused (runEvents evs initGame) ∧ ¬flagsGameOver (runEvents evs initGame)) ∨
    (flagsPaused (runEvents evs initGame) ∧ ¬flagsNotStarted (runEvents evs initGame) ∧
      ¬flagsPlaying (runEvents evs initGame) ∧ ¬flagsGameOver (runEvents evs initGame)) ∨
    (flagsGameOver (runEvents evs initGame) ∧ ¬flagsNotStarted (runEvents evs initGame) ∧
      ¬flagsPlaying (runEvents evs initGame) ∧ ¬flagsPaused (runEvents evs initGame)) :=
  phaseValid_exactlyOne (runEvents evs initGame)
    (runEvents_phaseValid evs initGame (Or.inl ⟨rfl, rfl, rfl⟩))

/-- Whether a game-loop operation is the session-start reset. -/
def GEvent.isStart : GEvent → Prop
  | .start _ _ _ _ _ _ => True
  | _ => False

/-- Frame deltas come from the session clock and are non-negative. -/
def GEvent.nonNegDelta : GEvent → Prop
  | .frame inp => 0 ≤ inp.delta
  | _ => True

theorem animate_counters (inp : FrameInput) (s : GameState) (hd : 0 ≤ inp.delta) :
    s.score ≤ (animate inp s).score ∧
    s.shotsFired ≤ (animate inp s).shotsFired ∧
    s.shotsHit ≤ (animate inp s).shotsHit := by
  by_cases h1 : s.isPaused = true
  · rw [animate_paused inp s h1]
    exact ⟨le_refl _, le_refl _, le_refl _⟩
  have h1f : s.isPaused = false := by simpa using h1
  by_cases h2 : s.isGameOver = true
  · rw [animate_gameOver inp s h1f h2]
    exact ⟨le_refl _, le_refl _, le_refl _⟩
  have h2f : s.isGameOver = false := by simpa using h2
  by_cases h3 : s.isPlaying = false
  · rw [animate_menu inp s h1f h2f h3]
    exact ⟨le_refl _, le_refl _, le_refl _⟩
  have h3t : s.isPlaying = true := by simpa using h3
  by_cases h4 : s.timeLeft - inp.delta ≤ 0
  · rw [animate_timeout inp s h3t h1f h2f h4]
    exact ⟨le_refl _, le_refl _, le_refl _⟩
  · obtain ⟨mpSc, _, _, _, _, _, _, _, mpSF, mpSH, _⟩ := movePhase_fields inp (preMove inp s)
    cases h5 : (movePhase inp (preMove inp s)).2 with
    | true =>
        rw [animate_win inp s h3t h1f h2f h4 h5]
        refine ⟨?_, ?_, ?_⟩
        · show s.score ≤ (movePhase inp (preMove inp s)).1.score
          rw [mpSc]
          exact le_refl _
        · show s.shotsFired ≤ (movePhase inp (preMove inp s)).1.shotsFired
          rw [mpSF]
          exact le_refl _
        · show s.shotsHit ≤ (movePhase inp (preMove inp s)).1.shotsHit
          rw [mpSH]
          exact le_refl _
    | false =>
        rw [animate_running inp s h3t h1f h2f h4 h5]
        obtain ⟨_, _, _, _, ftSF, ftSH, _⟩ := frameTail_fields inp (movePhase inp (preMove inp s)).1
        refine ⟨?_, ?_, ?_⟩
        · refine le_trans ?_ (frameTail_score inp (movePhase inp (preMove inp s)).1 hd)
          rw [mpSc]
          exact le_refl _
        · rw [ftSF, mpSF]
          exact le_refl _
        · rw [ftSH, mpSH]
          exact le_refl _

theorem resetGame_counters (s : GameState) (now : ℤ) (pos raw : Vec3)
    (plats : List Platform) (goal : Platform) :
    (resetGame s now pos raw plats goal).score = 0 ∧
    (resetGame s now pos raw plats goal).shotsFired = 0 ∧
    (resetGame s now pos raw plats goal).shotsHit = 0 := by
  simp only [resetGame, spawnTargetG, updateHUD]
  split_ifs <;> exact ⟨rfl, rfl, rfl⟩

/-- C9: within a session, the score and the two shot counters never decrease
under any game-loop operation (frame tick, fire, jump, key change, pause,
resume, quit, and the end/win transitions inside the tick), and they are set
to zero exactly by the session-start reset. -/
theorem c9_counters_monotone (e : GEvent) (s : GameState) (hwf : e.nonNegDelta) :
    (¬ e.isStart →
      s.score ≤ (gstep e s).score ∧
      s.shotsFired ≤ (gstep e s).shotsFired ∧
      s.shotsHit ≤ (gstep e s).shotsHit) ∧
    (e.isStart →
      (gstep e s).score = 0 ∧ (gstep e s).shotsFired = 0 ∧ (gstep e s).shotsHit = 0) := by
  cases e with
  | start mode now pos raw plats goal =>
      constructor
      · intro h
        exact absurd trivial h
      · intro _
        exact resetGame_counters _ now pos raw plats goal
  | frame inp =>
      exact ⟨fun _ => animate_counters inp s hwf, fun h => h.elim⟩
  | mouseDown locked hits pos raw =>
      refine ⟨fun _ => ?_, fun h => h.elim⟩
      obtain ⟨_, _, _, f4, f5, f6⟩ := onMouseDown_fields s locked hits pos raw
      exact ⟨f4, f5, f6⟩
  | jumpKey =>
      refine ⟨fun _ => ?_, fun h => h.elim⟩
      show s.score ≤ (spaceJump s).score ∧ s.shotsFired ≤ (spaceJump s).shotsFired ∧
        s.shotsHit ≤ (spaceJump s).shotsHit
      unfold spaceJump
      split_ifs <;> exact ⟨le_refl _, le_refl _, le_refl _⟩
  | setKeys f b l r sp =>
      exact ⟨fun _ => ⟨le_refl _, le_refl _, le_refl _⟩, fun h => h.elim⟩
  | unlock =>
      refine ⟨fun _ => ?_, fun h => h.elim⟩
      show s.score ≤ (unlockPause s).score ∧ s.shotsFired ≤ (unlockPause s).shotsFired ∧
        s.shotsHit ≤ (unlockPause s).shotsHit
      unfold unlockPause pauseGame
      split_ifs <;> exact ⟨le_refl _, le_refl _, le_refl _⟩
  | resume =>
      exact ⟨fun _ => ⟨le_refl _, le_refl _, le_refl _⟩, fun h => h.elim⟩
  | quit =>
      exact ⟨fun _ => ⟨le_refl _, le_refl _, le_refl _⟩, fun h => h.elim⟩

/-- Witness for C9: a non-start frame event with non-negative delta leaves the
constructor state's counters non-decreasing. -/
theorem c9_counters_monotone_witness :
    GEvent.nonNegDelta (GEvent.frame c6Input) ∧
    ¬ GEvent.isStart (GEvent.frame c6Input) ∧
    initGame.score ≤ (gstep (GEvent.frame c6Input) initGame).score ∧
    initGame.shotsFired ≤ (gstep (GEvent.frame c6Input) initGame).shotsFired ∧
    initGame.shotsHit ≤ (gstep (GEvent.frame c6Input) initGame).shotsHit := by
  have hwf : GEvent.nonNegDelta (GEvent.frame c6Input) := by
    show (0 : ℝ) ≤ c6Input.delta
    norm_num [c6Input]
  have hns : ¬ GEvent.isStart (GEvent.frame c6Input) := fun h => h
  have h := (c9_counters_monotone (GEvent.frame c6Input) initGame hwf).1 hns
  exact ⟨hwf, hns, h.1, h.2.1, h.2.2⟩

theorem staticFire_startTime (s : GameState) (pos raw : Vec3) :
    ∀ hits : List (Option ℕ),
      (staticFire s pos raw hits).parkourStartTime = s.parkourStartTime
  | [] => rfl
  | none :: os => by
      simp only [staticFire]
      exact staticFire_startTime s pos raw os
  | some j :: os => by
      simp only [staticFire]
      cases hj : s.targets.get? j with
      | none => exact staticFire_startTime s pos raw os
      | some u =>
          by_cases hu : u.isActive = true
          · simp only [hu, eq_self_iff_true, if_true]
            rfl
          · have hu2 : u.isActive = false := by simpa using hu
            simp only [hu2, Bool.false_eq_true, if_false]
            exact staticFire_startTime s pos raw os

theorem gstep_startTime (e : GEvent) (s : GameState) (h : ¬ e.isStart) :
    (gstep e s).parkourStartTime = s.parkourStartTime := by
  cases e with
  | start mode now pos raw plats goal => exact absurd trivial h
  | frame inp =>
      show (animate inp s).parkourStartTime = s.parkourStartTime
      by_cases h1 : s.isPaused = true
      · rw [animate_paused inp s h1]
      have h1f : s.isPaused = false := by simpa using h1
      by_cases h2 : s.isGameOver = true
      · rw [animate_gameOver inp s h1f h2]
      have h2f : s.isGameOver = false := by simpa using h2
      by_cases h3 : s.isPlaying = false
      · rw [animate_menu inp s h1f h2f h3]
      have h3t : s.isPlaying = true := by simpa using h3
      by_cases h4 : s.timeLeft - inp.delta ≤ 0
      · rw [animate_timeout inp s h3t h1f h2f h4]
        rfl
      · obtain ⟨_, _, _, mpST, _⟩ := movePhase_fields inp (preMove inp s)
        cases h5 : (movePhase inp (preMove inp s)).2 with
        | true =>
            rw [animate_win inp s h3t h1f h2f h4 h5]
            show (movePhase inp (preMove inp s)).1.parkourStartTime = s.parkourStartTime
            rw [mpST]
            rfl
        | false =>
            rw [animate_running inp s h3t h1f h2f h4 h5]
            obtain ⟨_, _, _, _, _, _, ftST, _⟩ := frameTail_fields inp (movePhase inp (preMove inp s)).1
            rw [ftST, mpST]
            rfl
  | mouseDown locked hits pos raw =>
      show (onMouseDown s locked hits pos raw).parkourStartTime = s.parkourStartTime
      unfold onMouseDown
      split_ifs
      · rfl
      · rfl
      · exact staticFire_startTime { s with shotsFired := s.shotsFired + 1 } pos raw hits
      · rfl
  | jumpKey =>
      show (spaceJump s).parkourStartTime = s.parkourStartTime
      unfold spaceJump
      split_ifs <;> rfl
  | setKeys f b l r sp => rfl
  | unlock =>
      show (unlockPause s).parkourStartTime = s.parkourStartTime
      unfold unlockPause pauseGame
      split_ifs <;> rfl
  | resume => rfl
  | quit => rfl

theorem runEvents_startTime (evs : List GEvent) (h : ∀ e ∈ evs, ¬ e.isStart) :
    ∀ s : GameState, (runEvents evs s).parkourStartTime = s.parkourStartTime := by
  induction evs with
  | nil => exact fun s => rfl
  | cons e es ih =>
      intro s
      have h1 : (runEvents es (gstep e s)).parkourStartTime = (gstep e s).parkourStartTime :=
        ih (fun x hx => h x (List.mem_cons_of_mem e hx)) (gstep e s)
      have h2 := gstep_startTime e s (h e (List.mem_cons_self e es))
      exact h1.trans h2

theorem frameTail_display_parkour (inp : FrameInput) (s2 : GameState)
    (hm : s2.gameMode = Mode.parkour) :
    (frameTail inp s2).timeDisplay = (inp.now - s2.parkourStartTime).fdiv 1000 := by
  unfold frameTail modePhase displayPhase trackingScore
  rw [if_pos hm]
  split_ifs with h1 h2
  · exfalso
    have hx : Mode.parkour = Mode.tracking := by
      rw [← hm]
      exact h2.1
    exact absurd hx (by simp)
  · rfl
  · rfl

/-- C10: the parkour completion time shown on winning is the floored wall-clock
seconds since the session reset — `parkourStartTime` is written only by the
start reset, never adjusted by pause, resume or any other in-session
operation, so real time spent paused is included in the recorded time and in
the elapsed display; meanwhile a paused frame leaves the whole state (physics
and countdown) untouched. -/
theorem c10_wall_clock (s : GameState) (t0 t1 : ℤ) (pos raw : Vec3)
    (plats : List Platform) (goal : Platform) (evs : List GEvent)
    (hnostart : ∀ e ∈ evs, ¬ e.isStart) :
    (winParkour (runEvents evs (startGame s Mode.parkour t0 pos raw plats goal)) t1).finalScore =
      some ((t1 - t0).fdiv 1000) ∧
    (∀ (inp : FrameInput) (u : GameState), u.isPaused = true → animate inp u = u) ∧
    (∀ (inp : FrameInput) (u : GameState), u.gameMode = Mode.parkour →
      u.isPlaying = true → u.isPaused = false → u.isGameOver = false →
      ¬(u.timeLeft - inp.delta ≤ 0) → (movePhase inp (preMove inp u)).2 = false →
      (animate inp u).timeDisplay = (inp.now - u.parkourStartTime).fdiv 1000) := by
  refine ⟨?_, fun inp u h => animate_paused inp u h, ?_⟩
  · have hST : (runEvents evs (startGame s Mode.parkour t0 pos raw plats goal)).parkourStartTime = t0 :=
      (runEvents_startTime evs hnostart _).trans rfl
    show some ((t1 - (runEvents evs (startGame s Mode.parkour t0 pos raw plats goal)).parkourStartTime).fdiv 1000) =
      some ((t1 - t0).fdiv 1000)
    rw [hST]
  · intro inp u hm hp hpa hgo ht hw
    rw [animate_running inp u hp hpa hgo ht hw]
    obtain ⟨_, mpGM, _, mpST, _⟩ := movePhase_fields inp (preMove inp u)
    have hm2 : (movePhase inp (preMove inp u)).1.gameMode = Mode.parkour := by
      rw [mpGM]
      exact hm
    rw [frameTail_display_parkour inp _ hm2, mpST]
    rfl

/-- Witness for C10: start parkour at wall time 5000 ms, pause and resume, win
at 7600 ms — the recorded completion time is 2 seconds, the paused interval
included. -/
theorem c10_wall_clock_witness :
    (∀ e ∈ ([GEvent.unlock, GEvent.resume] : List GEvent), ¬ e.isStart) ∧
    (winParkour (runEvents [GEvent.unlock, GEvent.resume]
        (startGame initGame Mode.parkour 5000 Vec3.zero ⟨1, 0, 0⟩ [c1Platform] c1Goal))
      7600).finalScore = some 2 := by
  have hns : ∀ e ∈ ([GEvent.unlock, GEvent.resume] : List GEvent), ¬ e.isStart := by
    intro e he
    rcases List.mem_cons.mp he with rfl | he2
    · exact fun h => h
    · rcases List.mem_cons.mp he2 with rfl | he3
      · exact fun h => h
      · exact absurd he3 (List.not_mem_nil e)
  have h := (c10_wall_clock initGame 5000 7600 Vec3.zero ⟨1, 0, 0⟩ [c1Platform] c1Goal
    [GEvent.unlock, GEvent.resume] hns).1
  exact ⟨hns, h.trans (by decide)⟩

end

end AimThree
